import Mathlib

/-
Verification of the adaptive packetizer (proofplayer/src/TAdaptivePacketizer.cxx)
against its natural-language specification.

The C++ classes are shallowly embedded as Lean structures; pointers become
indices into lists, `Long64_t`/`Int_t` become `Int` (with `Int.tdiv` for the
C integer divisions, which truncate toward zero), `Float_t`/`Double_t`
arithmetic is modelled by exact rationals `ℚ`, and the `(Long64_t)` cast of a
floating value is truncation toward zero (`ratTrunc`).  TList cursors become
`Option Nat` indices.  Everything is executable so that concrete states can
be evaluated by `decide`.
-/

namespace AdaptivePacketizer

/-- C cast of a floating value to an integer: truncation toward zero. -/
def ratTrunc (q : ℚ) : Int := Int.tdiv q.num (q.den : Int)

/-- The fields of a `TDSetElement` that the packetizer reads and writes:
the first entry of the requested range and the number of entries. -/
structure TDSetElement where
  first : Int
  num : Int
  deriving Repr, DecidableEq

/-- A packet handed to a worker: the element sub-range `[first, first+num)`
built by `CreateNewPacket(base, first, num)` in `GetNextPacket`. -/
structure Packet where
  first : Int
  num : Int
  deriving Repr, DecidableEq

/-- `TAdaptivePacketizer::TFileStat` (TAdaptivePacketizer.cxx lines 77-100):
one element together with the dispatch cursor `fNextEntry` and the
`fIsDone` flag.  The constructor initialises `fNextEntry` to
`elem->GetFirst()`. -/
structure TFileStat where
  isDone : Bool
  element : TDSetElement
  nextEntry : Int
  deriving Repr, DecidableEq

/-- `TFileStat::TFileStat(node, elem)`: fresh stat with the cursor at the
element's first entry and the done flag clear. -/
def TFileStat.init (elem : TDSetElement) : TFileStat :=
  { isDone := false, element := elem, nextEntry := elem.first }

/-- The packet-carving step of `GetNextPacket` (lines 1248-1263): take the
sub-range starting at `fNextEntry`; if the remaining part is not larger than
the requested size, the packet is the whole rest and the file is marked done
(the cursor is left where it was); otherwise the cursor moves forward by
`num0` (`MoveNextEntry`).  Returns `((first, num), updated file)`. -/
def carvePacket (f : TFileStat) (num0 : Int) : (Int × Int) × TFileStat :=
  let first := f.nextEntry
  let last := f.element.first + f.element.num
  if first + num0 ≥ last then
    ((first, last - first), { f with isDone := true })
  else
    ((first, num0), { f with nextEntry := f.nextEntry + num0 })

/-- All packets ever carved from one file: `GetNextPacket` carves from a
`TFileStat` once per request (requests for a done file never reach the
carving code, because done files are cleared from the worker and removed
from the active lists), so the per-element packet history is exactly the
iteration of `carvePacket` with the successive requested sizes. -/
def carveTrace (f : TFileStat) : List Int → List (Int × Int) × TFileStat
  | [] => ([], f)
  | n :: ns =>
    if f.isDone then ([], f)
    else
      ((carvePacket f n).1 :: (carveTrace (carvePacket f n).2 ns).1,
       (carveTrace (carvePacket f n).2 ns).2)

/-- `tilesPos lo hi ps`: the intervals `[a, a+len)` of `ps` tile `[lo, hi)`
exactly: consecutive (no gap, no overlap), in strictly ascending order
(every length is positive), starting at `lo` and ending at `hi`. -/
def tilesPos (lo hi : Int) : List (Int × Int) → Prop
  | [] => lo = hi
  | p :: ps => p.1 = lo ∧ 1 ≤ p.2 ∧ tilesPos (p.1 + p.2) hi ps

/-- States of one file's `TFileStat` reachable during a query: the initial
stat, plus any number of carving steps with a positive requested size
(`CalculatePacketSize` never returns less than 1) applied while the file is
not yet done. -/
inductive ReachableFileStat (elem : TDSetElement) : TFileStat → Prop
  | init : ReachableFileStat elem (TFileStat.init elem)
  | step (f : TFileStat) (n : Int) (hn : 1 ≤ n) (hf : f.isDone = false)
      (hr : ReachableFileStat elem f) : ReachableFileStat elem (carvePacket f n).2

/-- `TAdaptivePacketizer::TFileNode` (lines 105-324): a host with its file
arena, the two file cursors, the worker counters and the event counters.
`files` is the `fFiles` list (owning arena, indexed); `actFiles` holds
indices into `files`. -/
structure NodeSt where
  nodeName : String
  files : List TFileStat
  unAllocFileNext : Option Nat
  actFiles : List Nat
  actFileNext : Option Nat
  mySlaveCnt : Int
  extSlaveCnt : Int
  runSlaveCnt : Int
  processed : Int
  events : Int
  deriving Repr, DecidableEq

/-- `TList::After` on a list of file indices: the element after the first
occurrence of `i`, if any. -/
def listAfter : List Nat → Nat → Option Nat
  | [], _ => none
  | x :: xs, i => if x = i then xs.head? else listAfter xs i

/-- `TFileNode::GetNextUnAlloc` (lines 156-169): hand out the file under the
un-allocated cursor, add it to the active list (setting the active cursor if
it was null), and advance the un-allocated cursor. -/
def NodeSt.getNextUnAlloc (n : NodeSt) : Option Nat × NodeSt :=
  match n.unAllocFileNext with
  | none => (none, n)
  | some i =>
    let act1 := n.actFiles ++ [i]
    let cursor := match n.actFileNext with
      | none => act1.head?
      | some j => some j
    let ua := if i + 1 < n.files.length then some (i + 1) else none
    (some i, { n with actFiles := act1, actFileNext := cursor, unAllocFileNext := ua })

/-- `TFileNode::GetNextActive` (lines 171-181): hand out the file under the
active cursor and advance the cursor round-robin (wrap to the front when the
end of the active list is reached). -/
def NodeSt.getNextActive (n : NodeSt) : Option Nat × NodeSt :=
  match n.actFileNext with
  | none => (none, n)
  | some i =>
    let nxt := match listAfter n.actFiles i with
      | none => n.actFiles.head?
      | some j => some j
    (some i, { n with actFileNext := nxt })

/-- `TFileNode::RemoveActive` (lines 183-188): if the cursor points at the
removed file it first moves past it; the file is erased; a null cursor is
reset to the front of the remaining list. -/
def NodeSt.removeActive (n : NodeSt) (fi : Nat) : NodeSt :=
  let c1 := if n.actFileNext = some fi then listAfter n.actFiles fi else n.actFileNext
  let act1 := n.actFiles.erase fi
  let c2 := match c1 with
    | none => act1.head?
    | some j => some j
  { n with actFiles := act1, actFileNext := c2 }

/-- `TFileNode::GetEventsLeftPerSlave` (lines 143-144): events still to
process divided (C integer division) by the running-worker count plus one. -/
def NodeSt.getEventsLeftPerSlave (n : NodeSt) : Int :=
  Int.tdiv (n.events - n.processed) (n.runSlaveCnt + 1)

/-- `TFileNode::IncExtSlaveCnt` (line 128): increment the external-worker
count unless the worker's name equals the node's name. -/
def incExtSlaveCnt (n : NodeSt) (slaveName : String) : NodeSt :=
  if n.nodeName ≠ slaveName then { n with extSlaveCnt := n.extSlaveCnt + 1 } else n

/-- `TFileNode::DecExtSlaveCnt` (line 129): decrement the external-worker
count unless the worker's name equals the node's name. -/
def decExtSlaveCnt (n : NodeSt) (slaveName : String) : NodeSt :=
  if n.nodeName ≠ slaveName then { n with extSlaveCnt := n.extSlaveCnt - 1 } else n

/-- `TFileNode::Compare` (lines 190-295), with the static configuration
(`fgNetworkFasterThanHD`, `fgMaxSlaveCnt`) passed explicitly.  Returns -1
when `self` is smaller (more deserving of a worker), 1 when larger, 0 only
in the deepest tie of the HD mode. -/
def compareFileNode (networkFasterThanHD : Bool) (maxSlaveCnt : Int)
    (self obj : NodeSt) : Int :=
  if networkFasterThanHD then
    if self.runSlaveCnt < obj.runSlaveCnt then -1
    else if self.runSlaveCnt > obj.runSlaveCnt then 1
    else if self.events - self.processed > obj.events - obj.processed then -1
    else 1
  else
    let diffEvents := self.getEventsLeftPerSlave - obj.getEventsLeftPerSlave
    let avEventsLeft := Int.tdiv (self.getEventsLeftPerSlave + obj.getEventsLeftPerSlave) 2
    let mySlavesProcRemote := (self.mySlaveCnt + self.extSlaveCnt) - self.runSlaveCnt
    let otherSlavesProcRemote := (obj.mySlaveCnt + obj.extSlaveCnt) - obj.runSlaveCnt
    if mySlavesProcRemote < otherSlavesProcRemote then
      if diffEvents < -(Int.tdiv avEventsLeft 2) ∧ obj.extSlaveCnt < maxSlaveCnt then 1 else -1
    else if mySlavesProcRemote > otherSlavesProcRemote then
      if diffEvents > Int.tdiv avEventsLeft 2 ∧ self.extSlaveCnt < maxSlaveCnt then -1 else 1
    else if self.extSlaveCnt < obj.extSlaveCnt then
      if diffEvents < -(Int.tdiv avEventsLeft 3) ∧ obj.extSlaveCnt < maxSlaveCnt then 1 else -1
    else if self.extSlaveCnt > obj.extSlaveCnt then
      if diffEvents > Int.tdiv avEventsLeft 3 ∧ self.extSlaveCnt < maxSlaveCnt then -1 else 1
    else if self.mySlaveCnt < obj.mySlaveCnt then
      if diffEvents < -(Int.tdiv avEventsLeft 3) ∧ obj.extSlaveCnt < maxSlaveCnt then 1 else -1
    else if self.mySlaveCnt > obj.mySlaveCnt then
      if diffEvents > Int.tdiv avEventsLeft 3 ∧ self.extSlaveCnt < maxSlaveCnt then -1 else 1
    else if diffEvents > 0 then -1
    else if diffEvents < 0 then 1
    else 0

/-- `TAdaptivePacketizer::TSlaveStat` (lines 328-364): per-worker state.
`fileNode` and `curFile` are indices (node, and node-file pair). -/
structure SlaveSt where
  name : String
  perfIdx : Int
  fileNode : Option Nat
  curFile : Option (Nat × Nat)
  curElem : Option Packet
  processed : Int
  procTime : ℚ
  curProcessed : Int
  curProcTime : ℚ
  deriving Repr, DecidableEq

/-- `TSlaveStat::GetAvgRate` (line 351): `fProcessed/fProcTime`, or 0 when
the time is zero. -/
def SlaveSt.getAvgRate (s : SlaveSt) : ℚ :=
  if s.procTime ≠ 0 then (s.processed : ℚ) / s.procTime else 0

/-- `TSlaveStat::GetCurRate` (lines 352-353): the same for the current
file's counters. -/
def SlaveSt.getCurRate (s : SlaveSt) : ℚ :=
  if s.curProcTime ≠ 0 then (s.curProcessed : ℚ) / s.curProcTime else 0

/-- The reply a worker piggy-backs on its next-packet request (lines
1095-1107): latency and processing times always, then the optional fields
in stream order. -/
structure PacketReply where
  latency : ℚ
  procTime : ℚ
  procCPU : ℚ
  bytesRead : Option Int
  totalEntries : Option Int
  eventsSeen : Option Int
  deriving Repr, DecidableEq

/-- The mutable state of a `TAdaptivePacketizer` instance reached from the
constructor (lines 390-633): the validity and stop flags, the counters, the
configuration, the node arena with the two node lists (as node indices),
the worker stats and the list of completed packets. -/
structure PacketizerSt where
  valid : Bool
  stop : Bool
  totalEntries : Int
  processed : Int
  bytesRead : Int
  cumProcTime : ℚ
  nEventsOnRemLoc : Int
  maxSlaveCnt : Int
  networkFasterThanHD : Bool
  baseLocalPreference : ℚ
  maxPerfIdx : Int
  nodes : List NodeSt
  unAllocated : List Nat
  active : List Nat
  slaves : List SlaveSt
  packets : List Packet
  deriving Repr, DecidableEq

/-- Default element (out-of-range index fallback; never hit on real states). -/
def dfltElem : TDSetElement := { first := 0, num := 0 }

/-- Default file stat for out-of-range indices. -/
def dfltFile : TFileStat := { isDone := false, element := dfltElem, nextEntry := 0 }

/-- Default node for out-of-range indices. -/
def dfltNode : NodeSt :=
  { nodeName := "", files := [], unAllocFileNext := none, actFiles := [],
    actFileNext := none, mySlaveCnt := 0, extSlaveCnt := 0, runSlaveCnt := 0,
    processed := 0, events := 0 }

/-- Default worker stat for out-of-range indices. -/
def dfltSlave : SlaveSt :=
  { name := "", perfIdx := 0, fileNode := none, curFile := none, curElem := none,
    processed := 0, procTime := 0, curProcessed := 0, curProcTime := 0 }

/-- The node behind index `ni`. -/
def nodeAt (st : PacketizerSt) (ni : Nat) : NodeSt := st.nodes.getD ni dfltNode

/-- Write back the node behind index `ni`. -/
def setNodeAt (st : PacketizerSt) (ni : Nat) (n : NodeSt) : PacketizerSt :=
  { st with nodes := st.nodes.set ni n }

/-- The worker stat behind index `si`. -/
def slaveAt (st : PacketizerSt) (si : Nat) : SlaveSt := st.slaves.getD si dfltSlave

/-- Write back the worker stat behind index `si`. -/
def setSlaveAt (st : PacketizerSt) (si : Nat) (sl : SlaveSt) : PacketizerSt :=
  { st with slaves := st.slaves.set si sl }

/-- The file stat behind the (node, file) index pair. -/
def fileAt (st : PacketizerSt) (ni fi : Nat) : TFileStat := (nodeAt st ni).files.getD fi dfltFile

/-- Write back the file stat behind the (node, file) index pair. -/
def setFileAt (st : PacketizerSt) (ni fi : Nat) (f : TFileStat) : PacketizerSt :=
  setNodeAt st ni { nodeAt st ni with files := (nodeAt st ni).files.set fi f }

/-- Insertion step of the comparator sort used for `TList::Sort`. -/
def insertByCompare (cmp : Nat → Nat → Int) (i : Nat) : List Nat → List Nat
  | [] => [i]
  | j :: js => if cmp i j ≤ 0 then i :: j :: js else j :: insertByCompare cmp i js

/-- `TList::Sort` over node indices with a `Compare`-style comparator. -/
def sortByCompare (cmp : Nat → Nat → Int) : List Nat → List Nat
  | [] => []
  | j :: js => insertByCompare cmp j (sortByCompare cmp js)

/-- The comparator the node lists are sorted with: `TFileNode::Compare`
under the instance's configuration. -/
def nodeCmp (st : PacketizerSt) (i j : Nat) : Int :=
  compareFileNode st.networkFasterThanHD st.maxSlaveCnt (nodeAt st i) (nodeAt st j)

/-- `TAdaptivePacketizer::RemoveUnAllocNode` (lines 703-708). -/
def removeUnAllocNode (st : PacketizerSt) (ni : Nat) : PacketizerSt :=
  { st with unAllocated := st.unAllocated.erase ni }

/-- `TAdaptivePacketizer::RemoveActiveNode` (lines 761-766). -/
def removeActiveNode (st : PacketizerSt) (ni : Nat) : PacketizerSt :=
  { st with active := st.active.erase ni }

/-- `fActive->FindObject(node) == 0 → fActive->Add(node)` (lines 671-674). -/
def addActiveIfAbsent (st : PacketizerSt) (ni : Nat) : PacketizerSt :=
  if st.active.contains ni then st else { st with active := st.active ++ [ni] }

/-- `TAdaptivePacketizer::NextNode` (lines 681-700): sort the un-allocated
node list, take the first node, but refuse it (returning null) when its
external-worker count has reached `fgMaxSlaveCnt`. -/
def nextNode (st : PacketizerSt) : Option Nat × PacketizerSt :=
  let st1 := { st with unAllocated := sortByCompare (nodeCmp st) st.unAllocated }
  match st1.unAllocated.head? with
  | none => (none, st1)
  | some ni =>
    if (nodeAt st1 ni).extSlaveCnt ≥ st1.maxSlaveCnt then (none, st1) else (some ni, st1)

/-- The `while (file == 0 && (node = NextNode()) != 0)` loop of
`TAdaptivePacketizer::GetNextUnAlloc` (lines 664-667).  Each unproductive
iteration removes the chosen node from the un-allocated list, so the list
length plus one bounds the iterations; the fuel makes that termination
argument explicit. -/
def getNextUnAllocLoop : Nat → PacketizerSt → Option (Nat × Nat) × PacketizerSt
  | 0, st => (none, st)
  | fuel + 1, st =>
    match (nextNode st).1 with
    | none => (none, (nextNode st).2)
    | some ni =>
      match ((nodeAt (nextNode st).2 ni).getNextUnAlloc).1 with
      | some fi => (some (ni, fi), setNodeAt (nextNode st).2 ni ((nodeAt (nextNode st).2 ni).getNextUnAlloc).2)
      | none => getNextUnAllocLoop fuel (removeUnAllocNode (nextNode st).2 ni)

/-- `TAdaptivePacketizer::GetNextUnAlloc()` with no node argument (lines
652-678): loop over `NextNode`, and make the node active when a file was
found. -/
def getNextUnAllocP (st : PacketizerSt) : Option (Nat × Nat) × PacketizerSt :=
  match (getNextUnAllocLoop (st.unAllocated.length + 1) st).1 with
  | none => (none, (getNextUnAllocLoop (st.unAllocated.length + 1) st).2)
  | some nf => (some nf, addActiveIfAbsent (getNextUnAllocLoop (st.unAllocated.length + 1) st).2 nf.1)

/-- `TAdaptivePacketizer::NextActiveNode` (lines 728-747): like `nextNode`
but over the active list. -/
def nextActiveNode (st : PacketizerSt) : Option Nat × PacketizerSt :=
  let st1 := { st with active := sortByCompare (nodeCmp st) st.active }
  match st1.active.head? with
  | none => (none, st1)
  | some ni =>
    if (nodeAt st1 ni).extSlaveCnt ≥ st1.maxSlaveCnt then (none, st1) else (some ni, st1)

/-- The loop of `TAdaptivePacketizer::GetNextActive` (lines 711-724); same
fuel argument as `getNextUnAllocLoop`. -/
def getNextActiveLoop : Nat → PacketizerSt → Option (Nat × Nat) × PacketizerSt
  | 0, st => (none, st)
  | fuel + 1, st =>
    match (nextActiveNode st).1 with
    | none => (none, (nextActiveNode st).2)
    | some ni =>
      match ((nodeAt (nextActiveNode st).2 ni).getNextActive).1 with
      | some fi => (some (ni, fi), setNodeAt (nextActiveNode st).2 ni ((nodeAt (nextActiveNode st).2 ni).getNextActive).2)
      | none => getNextActiveLoop fuel (removeActiveNode (nextActiveNode st).2 ni)

/-- `TAdaptivePacketizer::GetNextActive` (lines 711-724). -/
def getNextActiveP (st : PacketizerSt) : Option (Nat × Nat) × PacketizerSt :=
  getNextActiveLoop (st.active.length + 1) st

/-- `TAdaptivePacketizer::RemoveActive` (lines 750-758): remove the file
from its node's active list and the node from the active-node list when no
active file remains. -/
def removeActiveP (st : PacketizerSt) (ni fi : Nat) : PacketizerSt :=
  let n1 := (nodeAt st ni).removeActive fi
  let st1 := setNodeAt st ni n1
  if n1.actFiles.length = 0 then removeActiveNode st1 ni else st1

/-- `TAdaptivePacketizer::CalculatePacketSize` (lines 1042-1069).
`packetSizeAsFraction` is the constant 4; the first-packet branch divides
`Long64_t` by `Int_t` with C integer division before the floating
multiplication by the performance ratio. -/
def calculatePacketSize (st : PacketizerSt) (s : SlaveSt) : Int :=
  let rate := if s.getCurRate ≠ 0 then s.getCurRate else s.getAvgRate
  let num : Int :=
    if rate ≠ 0 then
      let avgProcRate : ℚ := (st.processed : ℚ) / (st.cumProcTime / (st.slaves.length : ℚ))
      let packetTime0 : ℚ := ((st.totalEntries - st.processed : Int) : ℚ) / avgProcRate / 4
      let packetTime : ℚ := if packetTime0 < 2 then 2 else packetTime0
      ratTrunc (rate * packetTime)
    else
      let packetSize : Int := Int.tdiv (st.totalEntries - st.processed) (8 * 4 * (st.slaves.length : Int))
      ratTrunc ((packetSize : ℚ) * ((s.perfIdx : ℚ) / (st.maxPerfIdx : ℚ)))
  if num < 1 then 1 else num

/-- The worker rate `CalculatePacketSize` bases its decision on: the
current-file rate, falling back to the cumulative rate when it is zero. -/
def chosenRate (s : SlaveSt) : ℚ :=
  if s.getCurRate ≠ 0 then s.getCurRate else s.getAvgRate

/-- Spec-side formula (claim C8): the average processing rate
`P / (C / S)`. -/
def claimAvgRate (st : PacketizerSt) : ℚ :=
  (st.processed : ℚ) / (st.cumProcTime / (st.slaves.length : ℚ))

/-- Spec-side formula (claim C8): the target packet time
`τ = max(2, ((T − P) / avgRate) / 4)`. -/
def claimTau (st : PacketizerSt) : ℚ :=
  max 2 (((st.totalEntries - st.processed : Int) : ℚ) / claimAvgRate st / 4)

/-- Spec-side formula (claim C8): rate branch, `⌊r · τ⌋` with minimum 1. -/
def claimRateSize (st : PacketizerSt) (s : SlaveSt) : Int :=
  max 1 (ratTrunc (chosenRate s * claimTau st))

/-- Spec-side formula (claim C8): first-packet branch,
`((T − P) / (8 · 4 · S)) · (perfIdx / maxPerfIdx)` with minimum 1, the
inner division being the C integer division of the source. -/
def claimFirstSize (st : PacketizerSt) (s : SlaveSt) : Int :=
  max 1 (ratTrunc (((Int.tdiv (st.totalEntries - st.processed) (8 * 4 * (st.slaves.length : Int))) : ℚ) *
    ((s.perfIdx : ℚ) / (st.maxPerfIdx : ℚ))))

/-- `TSlaveStat::UpdateRates` (lines 367-381) together with the
`IncProcessed` on the current file's node: a done current file resets the
current-file counters, otherwise they absorb the raw event count and time;
the cumulative counters always absorb the raw values.  When `fCurElem` is
set the source guarantees `fCurFile` is set too; the impossible null case
is modelled as a no-op. -/
def updateRates (st : PacketizerSt) (si : Nat) (nEvents : Int) (time : ℚ) : PacketizerSt :=
  match (slaveAt st si).curFile with
  | none => st
  | some nf =>
    let sl := slaveAt st si
    let sl1 :=
      if (fileAt st nf.1 nf.2).isDone then
        { sl with curProcTime := 0, curProcessed := 0,
                  procTime := sl.procTime + time, processed := sl.processed + nEvents }
      else
        { sl with curProcTime := sl.curProcTime + time,
                  curProcessed := sl.curProcessed + nEvents,
                  procTime := sl.procTime + time, processed := sl.processed + nEvents }
    let st1 := setSlaveAt st si sl1
    setNodeAt st1 nf.1 { nodeAt st1 nf.1 with processed := (nodeAt st1 nf.1).processed + nEvents }

/-- The stats-update block of `GetNextPacket` (lines 1094-1135): when a
packet was in flight, push it to the done list, recompute its event count
from the optional cumulative `totev`, add only a positive event count to
the global `fProcessed` (and positive byte count to `fBytesRead`), update
the worker's and node's counters with the raw count, accumulate the
processing time, and clear the in-flight element. -/
def updatePhase (st : PacketizerSt) (si : Nat) (r : PacketReply) : PacketizerSt :=
  match (slaveAt st si).curElem with
  | none => st
  | some elem =>
    let bytesRead := r.bytesRead.getD (-1)
    let totev := r.eventsSeen.getD 0
    let numev := if totev > 0 then totev - (slaveAt st si).processed else elem.num
    let st1 := { st with packets := st.packets ++ [elem],
                         processed := st.processed + (if numev > 0 then numev else 0),
                         bytesRead := st.bytesRead + (if bytesRead > 0 then bytesRead else 0) }
    let st2 := updateRates st1 si numev r.procTime
    let st3 := { st2 with cumProcTime := st2.cumProcTime + r.procTime }
    setSlaveAt st3 si { slaveAt st3 si with curElem := none }

/-- The event count the stats-update block computes for the worker's reply
(lines 1099, 1110-1111): the in-flight packet's size, or, when the reply
carries a positive cumulative `totev`, `totev` minus the worker's recorded
processed count. -/
def computedIncrement (st : PacketizerSt) (si : Nat) (r : PacketReply) : Int :=
  match (slaveAt st si).curElem with
  | none => 0
  | some elem =>
    if r.eventsSeen.getD 0 > 0 then r.eventsSeen.getD 0 - (slaveAt st si).processed else elem.num

/-- The current-file clearing block of `GetNextPacket` (lines 1142-1152):
when the worker's current file is done, decrement the owning node's
external and running worker counts and continue with no file (the worker's
`fCurFile` pointer itself is left in place by the source). -/
def clearDoneFile (st : PacketizerSt) (si : Nat) : Option (Nat × Nat) × PacketizerSt :=
  match (slaveAt st si).curFile with
  | none => (none, st)
  | some nf =>
    if (fileAt st nf.1 nf.2).isDone then
      let n1 := decExtSlaveCnt (nodeAt st nf.1) (slaveAt st si).name
      (none, setNodeAt st nf.1 { n1 with runSlaveCnt := n1.runSlaveCnt - 1 })
    else (some nf, st)

/-- The `openLocal` decision of `GetNextPacket` (lines 1161-1203), taken
when the worker still has a local file node: `true` means read from the
worker's own node.  `fnl` is the head of the (already sorted) un-allocated
node list (`firstNonLocalNode` in the source, although it need not be
non-local). -/
def decideOpenLocal (st : PacketizerSt) (si : Nat) (lni : Nat)
    (avgEventsLeftPerSlave : Int) (localPreference : ℚ) : Bool :=
  match st.unAllocated.head? with
  | none => true
  | some fnl =>
    if ¬((nodeAt st fnl).extSlaveCnt < st.maxSlaveCnt) then true
    else
      let sl := slaveAt st si
      let localNode := nodeAt st lni
      let fnlNode := nodeAt st fnl
      let slaveRate := sl.getAvgRate
      let localEventsLeft : Int := localNode.getEventsLeftPerSlave
      if localNode.runSlaveCnt > localNode.mySlaveCnt - 1 then true
      else if slaveRate = 0 then
        if (localEventsLeft : ℚ) * localPreference > (avgEventsLeftPerSlave : ℚ) then true
        else if (fnlNode.getEventsLeftPerSlave : ℚ) < (localEventsLeft : ℚ) * localPreference then true
        else if fnlNode.extSlaveCnt > 1 then true
        else if fnlNode.runSlaveCnt = 0 then true
        else false
      else
        let slaveTime := (localEventsLeft : ℚ) / slaveRate
        let avgTime := (avgEventsLeftPerSlave : ℚ) / ((st.processed : ℚ) / st.cumProcTime)
        if slaveTime * localPreference > avgTime then true
        else if (fnlNode.getEventsLeftPerSlave : ℚ) < (localEventsLeft : ℚ) * localPreference then true
        else false

/-- The local take of `GetNextPacket` (lines 1204-1213): next un-allocated,
else next active file from the worker's own node; when the node is
exhausted the worker's local assignment is cleared. -/
def localTake (st : PacketizerSt) (si : Nat) (lni : Nat) : Option (Nat × Nat) × PacketizerSt :=
  match ((nodeAt st lni).getNextUnAlloc).1 with
  | some fi => (some (lni, fi), setNodeAt st lni ((nodeAt st lni).getNextUnAlloc).2)
  | none =>
    match ((nodeAt st lni).getNextActive).1 with
    | some fi => (some (lni, fi), setNodeAt st lni ((nodeAt st lni).getNextActive).2)
    | none => (none, setSlaveAt st si { slaveAt st si with fileNode := none })

/-- The local branch of `GetNextPacket`'s file choice (lines 1159-1214):
when the worker has a local node, sort the un-allocated node list, decide
local against the first candidate of that list, and on a local decision
take a file from the worker's own node. -/
def localAttempt (st : PacketizerSt) (si : Nat) : Option (Nat × Nat) × PacketizerSt :=
  match (slaveAt st si).fileNode with
  | none => (none, st)
  | some lni =>
    let avgE := Int.tdiv (st.totalEntries - st.processed) (st.slaves.length : Int)
    let lp : ℚ := st.baseLocalPreference -
      (st.nEventsOnRemLoc : ℚ) / ((2 / 5 : ℚ) * ((st.totalEntries - st.processed : Int) : ℚ))
    let st1 := { st with unAllocated := sortByCompare (nodeCmp st) st.unAllocated }
    if decideOpenLocal st1 si lni avgE lp then localTake st1 si lni else (none, st1)

/-- The fall-back of `GetNextPacket`'s file choice (lines 1216-1224): an
un-allocated file on any node first, then an active file on any node. -/
def remoteFallback (p : Option (Nat × Nat) × PacketizerSt) : Option (Nat × Nat) × PacketizerSt :=
  let p1 := if p.1 = none then getNextUnAllocP p.2 else p
  if p1.1 = none then getNextActiveP p1.2 else p1

/-- The bookkeeping once a file is chosen (lines 1226-1241): record it as
the worker's current file; when the node has no local workers and the file
is untouched, subtract its events from `fNEventsOnRemLoc`; increment the
node's external and running worker counts. -/
def finishAcquire (p : Option (Nat × Nat) × PacketizerSt) (si : Nat) :
    Option (Nat × Nat) × PacketizerSt :=
  match p.1 with
  | none => (none, p.2)
  | some nf =>
    let st := setSlaveAt p.2 si { slaveAt p.2 si with curFile := some nf }
    let f := fileAt st nf.1 nf.2
    let st1 :=
      if (nodeAt st nf.1).mySlaveCnt = 0 ∧ f.element.first = f.nextEntry then
        { st with nEventsOnRemLoc := st.nEventsOnRemLoc - f.element.num }
      else st
    let n1 := incExtSlaveCnt (nodeAt st1 nf.1) (slaveAt st1 si).name
    (some nf, setNodeAt st1 nf.1 { n1 with runSlaveCnt := n1.runSlaveCnt + 1 })

/-- The whole file-choice block of `GetNextPacket` (lines 1159-1241),
entered when the worker has no current file. -/
def acquireFile (st : PacketizerSt) (si : Nat) : Option (Nat × Nat) × PacketizerSt :=
  finishAcquire (remoteFallback (localAttempt st si)) si

/-- The packet-building tail of `GetNextPacket` (lines 1244-1270): compute
the packet size, carve the sub-range from the chosen file (removing a
finished file from the active lists), and record the new packet as the
worker's in-flight element. -/
def carvePhase (st : PacketizerSt) (si : Nat) (nf : Nat × Nat) : Packet × PacketizerSt :=
  let num0 := calculatePacketSize st (slaveAt st si)
  let f := fileAt st nf.1 nf.2
  let c := carvePacket f num0
  let st1 := setFileAt st nf.1 nf.2 c.2
  let st2 := if f.nextEntry + num0 ≥ f.element.first + f.element.num
             then removeActiveP st1 nf.1 nf.2 else st1
  let pkt : Packet := { first := c.1.1, num := c.1.2 }
  (pkt, setSlaveAt st2 si { slaveAt st2 si with curElem := some pkt })

/-- Dispatch tail of `GetNextPacket`: `if (file == 0) return 0` (line 1226)
and otherwise the carving tail. -/
def gnpDispatch (p : Option (Nat × Nat) × PacketizerSt) (si : Nat) :
    Option Packet × PacketizerSt :=
  match p.1 with
  | none => (none, p.2)
  | some nf => (some (carvePhase p.2 si nf).1, (carvePhase p.2 si nf).2)

/-- `GetNextPacket` after the current-file clearing: the
`fTotalEntries == fProcessed` early return (lines 1156-1157) and the file
choice when the worker has no current file. -/
def gnpAfterClear (p : Option (Nat × Nat) × PacketizerSt) (si : Nat) :
    Option Packet × PacketizerSt :=
  if p.2.totalEntries = p.2.processed then (none, p.2)
  else gnpDispatch (if p.1 = none then acquireFile p.2 si else p) si

/-- `GetNextPacket` after the stats update: the stop check (lines
1137-1140) and the rest. -/
def gnpAfterUpdate (st : PacketizerSt) (si : Nat) : Option Packet × PacketizerSt :=
  if st.stop = true then (none, st)
  else gnpAfterClear (clearDoneFile st si) si

/-- `TAdaptivePacketizer::GetNextPacket` (lines 1072-1271) for worker `si`
with reply `r`: invalid instances return null immediately (lines
1082-1084); then the stats update, the stop check, the current-file
clearing, the `fTotalEntries == fProcessed` check, the file choice and the
packet carving, in the source's order. -/
def getNextPacket (st : PacketizerSt) (si : Nat) (r : PacketReply) :
    Option Packet × PacketizerSt :=
  if st.valid = false then (none, st)
  else gnpAfterUpdate (updatePhase st si r) si

/-- The outcome of `GetNextPacket`'s file choice for this call: the
worker's current file if it is not done, else what the choice block
returns.  Null here is the only way a valid, un-stopped call with work
remaining returns no packet. -/
def acquiredFileOpt (st : PacketizerSt) (si : Nat) (r : PacketReply) : Option (Nat × Nat) :=
  (if (clearDoneFile (updatePhase st si r) si).1 = none
   then acquireFile (clearDoneFile (updatePhase st si r) si).2 si
   else clearDoneFile (updatePhase st si r) si).1

/-- Sum over all workers of the records they have reported processed. -/
def sumSlaveProcessed (st : PacketizerSt) : Int :=
  (st.slaves.map SlaveSt.processed).sum

/-- The drift between the global processed counter and the per-worker sum. -/
def procDrift (st : PacketizerSt) : Int := st.processed - sumSlaveProcessed st

/-- The kinds of worker message `ValidateFiles` distinguishes (lines
906-939): a failed `Recv` is modelled by `recvOk = false` at the call
site. -/
inductive VMsgKind
  | Fatal
  | LogFile
  | LogDone
  | GetEntries
  | Other
  deriving Repr, DecidableEq

/-- A worker's reply during validation: the message kind, the entry count
of a `GET_ENTRIES` reply and its optional corrected object name. -/
structure VReply where
  kind : VMsgKind
  entries : Int
  objname : Option String
  deriving Repr, DecidableEq

/-- The validation view of a `TDSetElement`: range, attached
entry/event-list size (`none` when no list), `fTDSetOffset` and title. -/
structure VElem where
  first : Int
  num : Int
  entryListN : Option Int
  tdsetOffset : Int
  title : String
  deriving Repr, DecidableEq

/-- What one `ValidateFiles` reply does to the packetizer and the element
under validation. -/
structure VStepResult where
  valid : Bool
  elem : Option VElem
  fileDone : Bool
  messageSent : Bool
  deriving Repr, DecidableEq

/-- The reply-handling step of `ValidateFiles` (lines 897-999) for the
element `e` the replying worker was validating: a failed `Recv`, a
`kPROOF_FATAL` or an unexpected message kind invalidate the packetizer;
log messages pass through; on a `GET_ENTRIES` reply the element is updated
— `entries > 0` with `first > entries` disables the element and sets
`fValid = kFALSE` (line 965), then `num` is clamped; `entries ≤ 0` removes
the element from the dataset and sends a `kPROOF_MESSAGE` to the client,
leaving `fValid` untouched.  `elem = none` means removed. -/
def validateReplyStep (valid0 : Bool) (recvOk : Bool) (reply : VReply) (e : VElem)
    (fileDone0 : Bool) : VStepResult :=
  if recvOk = false then { valid := false, elem := some e, fileDone := fileDone0, messageSent := false }
  else
    match reply.kind with
    | VMsgKind.Fatal => { valid := false, elem := some e, fileDone := fileDone0, messageSent := false }
    | VMsgKind.LogFile => { valid := valid0, elem := some e, fileDone := fileDone0, messageSent := false }
    | VMsgKind.LogDone => { valid := valid0, elem := some e, fileDone := fileDone0, messageSent := false }
    | VMsgKind.Other => { valid := false, elem := some e, fileDone := fileDone0, messageSent := false }
    | VMsgKind.GetEntries =>
      let e1 := { e with tdsetOffset := reply.entries,
                         title := reply.objname.getD e.title }
      if reply.entries > 0 then
        if e1.entryListN = none then
          let bad := e1.first > reply.entries
          let e2 :=
            if e1.num = -1 then { e1 with num := reply.entries - e1.first }
            else if e1.first + e1.num > reply.entries then { e1 with num := reply.entries - e1.first }
            else e1
          { valid := if bad then false else valid0, elem := some e2,
            fileDone := if bad then true else fileDone0, messageSent := false }
        else
          { valid := valid0, elem := some e1, fileDone := fileDone0, messageSent := false }
      else
        { valid := valid0, elem := none, fileDone := fileDone0, messageSent := true }

/-- The constructor's window view of an element (lines 504-590): range,
and the size of an attached entry/event list (`none` when there is no
list). -/
structure WElem where
  first : Int
  num : Int
  entryListN : Option Int
  deriving Repr, DecidableEq

/-- One element of the constructor's window scan (lines 512-563): `none`
when the element is dropped.  An element without a selection list is
dropped when it ends before the window or starts at or after its end, and
trimmed at the window's boundaries; an element with a selection list is
kept iff the list is non-empty. -/
def windowStep (first num cur : Int) (e : WElem) : Option WElem :=
  match e.entryListN with
  | none =>
    if cur + e.num < first then none
    else if num ≠ -1 ∧ first + num ≤ cur then none
    else
      let e1 := if num ≠ -1 ∧ first + num < cur + e.num then { e with num := first + num - cur } else e
      let e2 := if cur < first then
          { e1 with first := e1.first + (first - cur), num := e1.num - (first - cur) }
        else e1
      some e2
  | some n => if n = 0 then none else some e

/-- The constructor's window scan over the dataset (lines 502-590): apply
`windowStep` to each element in order, advancing the logical cursor `cur`
by the element's (pre-adjustment) entry count — only for elements without
a selection list, as in the source. -/
def applyWindowLoop (first num : Int) : List WElem → Int → List WElem
  | [], _ => []
  | e :: es, cur =>
    let cur1 := if e.entryListN = none then cur + e.num else cur
    match windowStep first num cur e with
    | none => applyWindowLoop first num es cur1
    | some e1 => e1 :: applyWindowLoop first num es cur1

/-- `fTotalEntries` after the scan (lines 586, 592-598): the sum of the
surviving elements' entry counts, overridden by the size of a dataset-wide
selection list when one is attached. -/
def windowTotalEntries (dsetListN : Option Int) (kept : List WElem) : Int :=
  match dsetListN with
  | some n => n
  | none => (kept.map WElem.num).sum

/-- The remote-file census of the constructor (lines 606-616): over all
nodes, the total file count, the file count on nodes with no assigned
worker (`GetSlaveCnt() == 0`) and the event count remaining on such
nodes. -/
def remoteFileCounts (nodes : List NodeSt) : Int × Int × Int :=
  nodes.foldl
    (fun acc fn =>
      if fn.mySlaveCnt + fn.extSlaveCnt = 0 then
        (acc.1 + (fn.files.length : Int), acc.2.1 + (fn.files.length : Int),
         acc.2.2 + (fn.events - fn.processed))
      else
        (acc.1 + (fn.files.length : Int), acc.2.1, acc.2.2))
    (0, 0, 0)

/-- `fFractionOfRemoteFiles = noRemoteFiles / totalNumberOfFiles` (line
625): both operands are `Int_t`, so the source divides with C integer
division and only then converts to the `Float_t` field. -/
def fractionOfRemoteFiles (nodes : List NodeSt) : ℚ :=
  ((Int.tdiv (remoteFileCounts nodes).2.1 (remoteFileCounts nodes).1 : Int) : ℚ)

/-- A host holding one active file of 10 entries with two external workers
already reading from it: at the default `fgMaxSlaveCnt = 2` the node is at
the per-node cap. -/
def capNode : NodeSt :=
  { nodeName := "h1",
    files := [TFileStat.init { first := 0, num := 10 }],
    unAllocFileNext := none,
    actFiles := [0], actFileNext := some 0,
    mySlaveCnt := 0, extSlaveCnt := 2, runSlaveCnt := 2,
    processed := 0, events := 10 }

/-- A third worker (not local to any node) asking for its first packet. -/
def capSlave : SlaveSt := { dfltSlave with name := "w3", perfIdx := 1 }

/-- Valid, un-stopped packetizer with work remaining (0 of 10 entries
processed) whose only node is at the external-worker cap. -/
def capSt : PacketizerSt :=
  { valid := true, stop := false, totalEntries := 10, processed := 0, bytesRead := 0,
    cumProcTime := 0, nEventsOnRemLoc := 0, maxSlaveCnt := 2,
    networkFasterThanHD := true, baseLocalPreference := 6 / 5, maxPerfIdx := 1,
    nodes := [capNode], unAllocated := [0], active := [0],
    slaves := [capSlave], packets := [] }

/-- A first-packet request reply: no previous packet, no optional fields. -/
def trivialReply : PacketReply :=
  { latency := 0, procTime := 0, procCPU := 0,
    bytesRead := none, totalEntries := none, eventsSeen := none }

/-- A node with one file of 10 entries, cursor at entry 2, one external
worker reading it. -/
def runNode : NodeSt :=
  { nodeName := "h1",
    files := [{ isDone := false, element := { first := 0, num := 10 }, nextEntry := 2 }],
    unAllocFileNext := none,
    actFiles := [0], actFileNext := some 0,
    mySlaveCnt := 0, extSlaveCnt := 1, runSlaveCnt := 1,
    processed := 5, events := 10 }

/-- A worker with packet `[0,2)` in flight that has recorded 5 processed
entries. -/
def overSlave : SlaveSt :=
  { name := "w1", perfIdx := 1, fileNode := none, curFile := some (0, 0),
    curElem := some { first := 0, num := 2 }, processed := 5, procTime := 1,
    curProcessed := 5, curProcTime := 1 }

/-- State in which worker w1 is about to reply with a cumulative
`eventsSeen` of 3, below its recorded 5 processed entries; the global
counter is at 5 of 5 total entries, so the call ends the query. -/
def overSt : PacketizerSt :=
  { valid := true, stop := false, totalEntries := 5, processed := 5, bytesRead := 0,
    cumProcTime := 1, nEventsOnRemLoc := 0, maxSlaveCnt := 2,
    networkFasterThanHD := true, baseLocalPreference := 6 / 5, maxPerfIdx := 1,
    nodes := [runNode], unAllocated := [], active := [0],
    slaves := [overSlave], packets := [] }

/-- The reply carrying `eventsSeen = 3`: the recomputed event count is
`3 − 5 = −2`. -/
def overReply : PacketReply :=
  { latency := 0, procTime := 1, procCPU := 0,
    bytesRead := none, totalEntries := none, eventsSeen := some 3 }

/-- A worker with packet `[0,2)` in flight and 2 recorded processed
entries. -/
def incSlave : SlaveSt :=
  { name := "w1", perfIdx := 1, fileNode := none, curFile := some (0, 0),
    curElem := some { first := 0, num := 2 }, processed := 2, procTime := 1,
    curProcessed := 2, curProcTime := 1 }

/-- State for a reply with a positive recomputed increment. -/
def incSt : PacketizerSt :=
  { valid := true, stop := false, totalEntries := 10, processed := 2, bytesRead := 0,
    cumProcTime := 1, nEventsOnRemLoc := 0, maxSlaveCnt := 2,
    networkFasterThanHD := true, baseLocalPreference := 6 / 5, maxPerfIdx := 1,
    nodes := [runNode], unAllocated := [], active := [0],
    slaves := [incSlave], packets := [] }

/-- The reply carrying `eventsSeen = 6`: the recomputed event count is
`6 − 2 = 4 > 0`. -/
def incReply : PacketReply :=
  { latency := 0, procTime := 1, procCPU := 0,
    bytesRead := none, totalEntries := none, eventsSeen := some 6 }

/-- A node whose single 5-entry file has been fully dispatched (done). -/
def overTotNode : NodeSt :=
  { nodeName := "h1",
    files := [{ isDone := true, element := { first := 0, num := 5 }, nextEntry := 3 }],
    unAllocFileNext := none, actFiles := [], actFileNext := none,
    mySlaveCnt := 0, extSlaveCnt := 1, runSlaveCnt := 1,
    processed := 2, events := 5 }

/-- The worker holding the final packet `[3, 5)` of that file, with 2
recorded processed entries. -/
def overTotSlave : SlaveSt :=
  { name := "w1", perfIdx := 1, fileNode := none, curFile := some (0, 0),
    curElem := some { first := 3, num := 2 }, processed := 2, procTime := 1,
    curProcessed := 2, curProcTime := 1 }

/-- A 5-entry query with 2 entries processed, about to receive the final
reply of worker w1. -/
def overTotSt : PacketizerSt :=
  { valid := true, stop := false, totalEntries := 5, processed := 2, bytesRead := 0,
    cumProcTime := 1, nEventsOnRemLoc := 0, maxSlaveCnt := 2,
    networkFasterThanHD := true, baseLocalPreference := 6 / 5, maxPerfIdx := 1,
    nodes := [overTotNode], unAllocated := [], active := [],
    slaves := [overTotSlave], packets := [] }

/-- The over-reporting reply: a cumulative `eventsSeen` of 9 on a 5-entry
query, giving the recomputed event count `9 − 2 = 7`. -/
def overTotReply : PacketReply :=
  { latency := 0, procTime := 1, procCPU := 0,
    bytesRead := none, totalEntries := none, eventsSeen := some 9 }

/-- Two structurally equal nodes (no running workers, no events). -/
def tieNodeA : NodeSt := { dfltNode with nodeName := "a" }

/-- Second node of the tie. -/
def tieNodeB : NodeSt := { dfltNode with nodeName := "b" }

/-- The spec's window-trimming scenario: five files of 1000 records. -/
def windowElems : List WElem :=
  [{ first := 0, num := 1000, entryListN := none },
   { first := 0, num := 1000, entryListN := none },
   { first := 0, num := 1000, entryListN := none },
   { first := 0, num := 1000, entryListN := none },
   { first := 0, num := 1000, entryListN := none }]

/-- An element requesting entries from 10 to the end (`num = −1`). -/
def valElemEx : VElem :=
  { first := 10, num := -1, entryListN := none, tdsetOffset := 0, title := "t" }

/-- A `GET_ENTRIES` reply reporting 5 entries: fewer than `valElemEx.first`. -/
def valReplyEx : VReply := { kind := VMsgKind.GetEntries, entries := 5, objname := none }

/-- A node holding two files on a host with no assigned worker. -/
def remNodeA : NodeSt :=
  { dfltNode with nodeName := "far", files := [dfltFile, dfltFile], events := 2000 }

/-- A node holding two files on a host with one local worker. -/
def remNodeB : NodeSt :=
  { dfltNode with nodeName := "near", files := [dfltFile, dfltFile], mySlaveCnt := 1, events := 2000 }

/-- A worker with a current rate of 2 events per second. -/
def rateSlave : SlaveSt :=
  { name := "w1", perfIdx := 1, fileNode := none, curFile := some (0, 0),
    curElem := none, processed := 4, procTime := 2, curProcessed := 4, curProcTime := 2 }

/-- A mid-query state for the packet-size computation: 4 of 100 entries
processed in 2 seconds of cumulative processing time. -/
def rateSt : PacketizerSt :=
  { valid := true, stop := false, totalEntries := 100, processed := 4, bytesRead := 0,
    cumProcTime := 2, nEventsOnRemLoc := 0, maxSlaveCnt := 2,
    networkFasterThanHD := true, baseLocalPreference := 6 / 5, maxPerfIdx := 1,
    nodes := [runNode], unAllocated := [], active := [0],
    slaves := [rateSlave], packets := [] }

/-! ## Helper lemmas -/

theorem getD_set_self {α : Type} (l : List α) (i : Nat) (x d : α) (h : i < l.length) :
    (l.set i x).getD i d = x := by
  induction l generalizing i with
  | nil => simp at h
  | cons a as ih =>
    cases i with
    | zero => rfl
    | succ n =>
      have hn : n < as.length := by simpa using h
      simpa using ih n hn

theorem sumProcessed_set (l : List SlaveSt) (i : Nat) (x : SlaveSt)
    (h : x.processed = (l.getD i dfltSlave).processed) :
    ((l.set i x).map SlaveSt.processed).sum = (l.map SlaveSt.processed).sum := by
  induction l generalizing i with
  | nil => simp
  | cons a as ih =>
    cases i with
    | zero =>
      simp only [List.getD_cons_zero] at h
      simp [h]
    | succ n =>
      simp only [List.getD_cons_succ] at h
      have h2 := ih n h
      show SlaveSt.processed a + (List.map SlaveSt.processed (as.set n x)).sum =
        SlaveSt.processed a + (List.map SlaveSt.processed as).sum
      rw [h2]

theorem if_lt_eq_max {α : Type} [LinearOrder α] (a x : α) :
    (if x < a then a else x) = max a x := by
  rcases le_or_lt a x with h | h
  · rw [if_neg (not_lt.mpr h), max_eq_right h]
  · rw [if_pos h, max_eq_left h.le]

theorem tilesPos_start_ge (ps : List (Int × Int)) : ∀ lo hi, tilesPos lo hi ps →
    ∀ p ∈ ps, lo ≤ p.1 := by
  induction ps with
  | nil => simp
  | cons q qs ih =>
    intro lo hi h p hp
    rw [tilesPos] at h
    obtain ⟨hq, hq1, hrest⟩ := h
    rcases List.mem_cons.mp hp with rfl | hp
    · omega
    · have := ih (q.1 + q.2) hi hrest p hp
      omega

theorem tilesPos_pairwise (ps : List (Int × Int)) : ∀ lo hi, tilesPos lo hi ps →
    List.Pairwise (fun p q : Int × Int => p.1 + p.2 ≤ q.1) ps := by
  induction ps with
  | nil => intro lo hi _; exact List.Pairwise.nil
  | cons q qs ih =>
    intro lo hi h
    rw [tilesPos] at h
    obtain ⟨hq, hq1, hrest⟩ := h
    refine List.Pairwise.cons ?_ (ih _ _ hrest)
    intro p hp
    have := tilesPos_start_ge qs _ _ hrest p hp
    omega

theorem carveTrace_done (f : TFileStat) (sizes : List Int) (h : f.isDone = true) :
    carveTrace f sizes = ([], f) := by
  cases sizes with
  | nil => rfl
  | cons n ns => rw [carveTrace, if_pos h]

theorem carveTrace_tiles (sizes : List Int) : ∀ f : TFileStat,
    f.isDone = false → f.nextEntry < f.element.first + f.element.num →
    (∀ s ∈ sizes, 1 ≤ s) →
    (carveTrace f sizes).2.isDone = true →
    tilesPos f.nextEntry (f.element.first + f.element.num) (carveTrace f sizes).1 := by
  induction sizes with
  | nil =>
    intro f hf _ _ hdone
    rw [carveTrace] at hdone
    rw [hf] at hdone
    exact absurd hdone (by simp)
  | cons n ns ih =>
    intro f hf hlt hsz hdone
    rw [carveTrace, if_neg (by simp [hf])] at hdone ⊢
    by_cases hge : f.nextEntry + n ≥ f.element.first + f.element.num
    · have hc : carvePacket f n =
          ((f.nextEntry, f.element.first + f.element.num - f.nextEntry),
           { f with isDone := true }) := by
        rw [carvePacket, if_pos hge]
      rw [hc, carveTrace_done _ ns rfl]
      rw [tilesPos]
      refine ⟨rfl, ?_, ?_⟩
      · show (1 : Int) ≤ f.element.first + f.element.num - f.nextEntry
        omega
      · show tilesPos (f.nextEntry + (f.element.first + f.element.num - f.nextEntry))
          (f.element.first + f.element.num) []
        rw [show f.nextEntry + (f.element.first + f.element.num - f.nextEntry)
              = f.element.first + f.element.num by omega]
        rw [tilesPos]
    · have hc : carvePacket f n =
          ((f.nextEntry, n), { f with nextEntry := f.nextEntry + n }) := by
        rw [carvePacket, if_neg hge]
      rw [hc] at hdone ⊢
      have hn1 : 1 ≤ n := hsz n (List.mem_cons_self n ns)
      have hlt2 : ({ f with nextEntry := f.nextEntry + n } : TFileStat).nextEntry <
          ({ f with nextEntry := f.nextEntry + n } : TFileStat).element.first +
          ({ f with nextEntry := f.nextEntry + n } : TFileStat).element.num := by
        show f.nextEntry + n < f.element.first + f.element.num
        omega
      have := ih { f with nextEntry := f.nextEntry + n } hf hlt2
        (fun s hs => hsz s (List.mem_cons_of_mem n hs)) hdone
      rw [tilesPos]
      exact ⟨rfl, hn1, this⟩

/-! ## Claim C2 -/

/-- Claim C2: for every Element, the sub-ranges of the packets carved from
its `TFileStat` (arbitrary positive requested sizes, as produced by
`CalculatePacketSize`) are pairwise disjoint, carved in strictly ascending
record order, and once the file is marked done their union is exactly
`[E.first, E.first + E.num)` — no gap and no overlap. -/
theorem carve_packets_partition_element (elem : TDSetElement) (sizes : List Int)
    (hnum : 1 ≤ elem.num) (hsz : ∀ s ∈ sizes, 1 ≤ s)
    (hdone : (carveTrace (TFileStat.init elem) sizes).2.isDone = true) :
    tilesPos elem.first (elem.first + elem.num)
      (carveTrace (TFileStat.init elem) sizes).1 ∧
    List.Pairwise (fun p q : Int × Int => p.1 + p.2 ≤ q.1)
      (carveTrace (TFileStat.init elem) sizes).1 := by
  have h1 := carveTrace_tiles sizes (TFileStat.init elem) rfl
    (by simp [TFileStat.init]; omega) hsz hdone
  have h2 : (TFileStat.init elem).nextEntry = elem.first := rfl
  have h3 : (TFileStat.init elem).element = elem := rfl
  rw [h2, h3] at h1
  exact ⟨h1, tilesPos_pairwise _ _ _ h1⟩

/-- Claim C2, witness: one file `[0, 3)` carved with requested sizes 2 and
then 5 tiles `[0, 3)` with the packets `(0, 2)` and `(2, 1)`. -/
theorem carve_packets_partition_element_witness :
    tilesPos ({ first := 0, num := 3 } : TDSetElement).first
      (({ first := 0, num := 3 } : TDSetElement).first +
       ({ first := 0, num := 3 } : TDSetElement).num)
      (carveTrace (TFileStat.init { first := 0, num := 3 }) [2, 5]).1 ∧
    List.Pairwise (fun p q : Int × Int => p.1 + p.2 ≤ q.1)
      (carveTrace (TFileStat.init { first := 0, num := 3 }) [2, 5]).1 :=
  carve_packets_partition_element { first := 0, num := 3 } [2, 5]
    (by decide) (by decide) (by decide)

/-! ## Claim C5 -/

/-- Claim C5, counterexample: carving the whole range `[0, 5)` in one
packet marks the file done but leaves `nextEntry` at 0, so the reachable
done state does not satisfy `nextEntry = first + num`. -/
theorem fileStat_done_cursor_counterexample :
    ReachableFileStat { first := 0, num := 5 }
      (carvePacket (TFileStat.init { first := 0, num := 5 }) 5).2 ∧
    (carvePacket (TFileStat.init { first := 0, num := 5 }) 5).2.isDone = true ∧
    (carvePacket (TFileStat.init { first := 0, num := 5 }) 5).2.nextEntry ≠
      ({ first := 0, num := 5 } : TDSetElement).first +
      ({ first := 0, num := 5 } : TDSetElement).num :=
  ⟨ReachableFileStat.step (TFileStat.init { first := 0, num := 5 }) 5
      (by decide) (by decide) ReachableFileStat.init,
   by decide, by decide⟩

/-- Claim C5 (amended): at every reachable state of a file's `TFileStat`
the cursor satisfies `element.first ≤ nextEntry < element.first +
element.num` (in particular `element.first ≤ nextEntry ≤ element.first +
element.num`); the done flag is not equivalent to `nextEntry = first +
num`: the final carve sets done but leaves the cursor at the final
packet's first entry. -/
theorem fileStat_cursor_invariant (elem : TDSetElement) (f : TFileStat)
    (hnum : 1 ≤ elem.num) (hr : ReachableFileStat elem f) :
    f.element = elem ∧ elem.first ≤ f.nextEntry ∧
    f.nextEntry < elem.first + elem.num := by
  induction hr with
  | init => exact ⟨rfl, le_refl _, by simp [TFileStat.init]; omega⟩
  | step g n hn hf hr ih =>
    obtain ⟨he, h1, h2⟩ := ih
    by_cases hge : g.nextEntry + n ≥ g.element.first + g.element.num
    · rw [carvePacket, if_pos hge]
      exact ⟨he, h1, h2⟩
    · rw [carvePacket, if_neg hge]
      refine ⟨he, by simp; omega, ?_⟩
      rw [he] at hge
      simp at hge ⊢
      omega

/-- Claim C5, witness: the invariant at the initial stat of file `[0, 5)`. -/
theorem fileStat_cursor_invariant_witness :
    (TFileStat.init { first := 0, num := 5 }).element =
      ({ first := 0, num := 5 } : TDSetElement) ∧
    ({ first := 0, num := 5 } : TDSetElement).first ≤
      (TFileStat.init { first := 0, num := 5 }).nextEntry ∧
    (TFileStat.init { first := 0, num := 5 }).nextEntry <
      ({ first := 0, num := 5 } : TDSetElement).first +
      ({ first := 0, num := 5 } : TDSetElement).num :=
  fileStat_cursor_invariant { first := 0, num := 5 }
    (TFileStat.init { first := 0, num := 5 }) (by decide) ReachableFileStat.init

/-! ## Claim C6 -/

/-- Claim C6, counterexample: two nodes with equal `runSlaveCnt` and equal
remaining records compare as 1 in both directions in the default
network-faster-than-HD mode — not opposite signs, and not 0. -/
theorem compare_tie_counterexample :
    compareFileNode true 2 tieNodeA tieNodeB = 1 ∧
    compareFileNode true 2 tieNodeB tieNodeA = 1 := by decide

/-- Claim C6 (amended): in the default network-faster-than-HD mode,
`Compare(A, B)` is −1 exactly when A has fewer running workers, or equally
many and strictly more remaining records; otherwise it is 1 — equal
remaining records also yield 1, so the results have opposite signs for
every pair except the exact ties, where both directions return 1 (never
0). -/
theorem compare_network_mode_characterization (m : Int) (a b : NodeSt) :
    (compareFileNode true m a b = -1 ↔
      a.runSlaveCnt < b.runSlaveCnt ∨
      (a.runSlaveCnt = b.runSlaveCnt ∧
       b.events - b.processed < a.events - a.processed)) ∧
    (compareFileNode true m a b = 1 ↔
      ¬(a.runSlaveCnt < b.runSlaveCnt ∨
        (a.runSlaveCnt = b.runSlaveCnt ∧
         b.events - b.processed < a.events - a.processed))) ∧
    ((compareFileNode true m a b = 1 ∧ compareFileNode true m b a = 1) ↔
      (a.runSlaveCnt = b.runSlaveCnt ∧
       a.events - a.processed = b.events - b.processed)) := by
  simp only [compareFileNode, if_true]
  refine ⟨?_, ?_, ?_⟩ <;> (split_ifs <;> (try simp_all) <;> omega)

/-! ## Claim C9 -/

/-- Claim C9: the recorded fraction of remote-only files is NOT the exact
ratio: `noRemoteFiles / totalNumberOfFiles` divides two `Int_t` counters
with C integer division before the result reaches the `Float_t` field, so
2 remote-only files out of 4 yield 0, not 0.5.  The spec's intent (an
exact ratio in a field named and printed as a fraction) makes this a bug
in the code. -/
theorem fraction_integer_division_bug :
    (remoteFileCounts [remNodeA, remNodeB]).1 = 4 ∧
    (remoteFileCounts [remNodeA, remNodeB]).2.1 = 2 ∧
    fractionOfRemoteFiles [remNodeA, remNodeB] = 0 ∧
    fractionOfRemoteFiles [remNodeA, remNodeB] ≠ 2 / 4 := by
  have hc : remoteFileCounts [remNodeA, remNodeB] = (4, 2, 2000) := by decide
  have ht : Int.tdiv 2 4 = 0 := by decide
  refine ⟨by rw [hc], by rw [hc], ?_, ?_⟩
  · unfold fractionOfRemoteFiles
    rw [hc]
    show ((Int.tdiv 2 4 : Int) : ℚ) = 0
    rw [ht]
    norm_num
  · unfold fractionOfRemoteFiles
    rw [hc]
    show ((Int.tdiv 2 4 : Int) : ℚ) ≠ 2 / 4
    rw [ht]
    norm_num

/-! ## Claim C3 -/

/-- Claim C3, counterexample: with window `(first = 1500, num = 2000)` on
five files of 1000 records each, the surviving elements are `(500, 500)`,
`(0, 1000)` and `(0, 500)`: the fourth file (file 3) is trimmed to
`num = 500` by the `first + num < cur + eNum` adjustment, not left
unchanged as the claim states. -/
theorem window_example_counterexample :
    (applyWindowLoop 1500 2000 windowElems 0).map (fun e => (e.first, e.num)) =
      [(500, 500), (0, 1000), (0, 500)] ∧
    ((0, 500) : Int × Int) ≠ ((0, 1000) : Int × Int) := by decide

/-- Claim C3 (amended): an element without a selection list is dropped
exactly when its logical range ends strictly before `first`
(`cur + num < first`) or starts at or after `first + num` (for a finite
window); boundary elements are trimmed by adjusting `first` and `num`; an
element with a selection list is kept iff the list is non-empty.  In the
5×1000-record example with window `(1500, 2000)`: `totalEntries = 2000`,
file 0 dropped, file 1 starting at record 500 with `num = 500`, file 2
unchanged, file 3 trimmed to `num = 500`, file 4 dropped. -/
theorem window_drop_characterization (first num cur : Int) (e : WElem) :
    (windowStep first num cur e = none ↔
      (e.entryListN = none ∧
        (cur + e.num < first ∨ (num ≠ -1 ∧ first + num ≤ cur))) ∨
      e.entryListN = some 0) ∧
    (applyWindowLoop 1500 2000 windowElems 0).map (fun e => (e.first, e.num)) =
      [(500, 500), (0, 1000), (0, 500)] ∧
    windowTotalEntries none (applyWindowLoop 1500 2000 windowElems 0) = 2000 := by
  refine ⟨?_, by decide, by decide⟩
  unfold windowStep
  cases h : e.entryListN with
  | none => split_ifs <;> simp_all
  | some n => split_ifs <;> simp_all

/-! ## Claim C4 -/

/-- Claim C4, counterexample: a well-received `GET_ENTRIES` reply with
`entries = 5 > 0` and `element.first = 10 > 5` invalidates the whole
packetizer (`fValid = kFALSE`, line 965), contradicting the claim that
only transport failures, `FATAL` and unexpected message kinds invalidate
it. -/
theorem validate_first_gt_entries_counterexample :
    valReplyEx.kind = VMsgKind.GetEntries ∧ 0 < valReplyEx.entries ∧
    valReplyEx.entries < valElemEx.first ∧
    (validateReplyStep true true valReplyEx valElemEx false).valid = false := by
  decide

/-- Claim C4 (amended): a `GET_ENTRIES` reply with `entries ≤ 0` removes
only the affected element and sends a `MESSAGE` notification, leaving the
validity flag untouched; but a reply with `entries > 0` and
`element.first > entries` (for an element without a selection list) both
disables the element and invalidates the whole packetizer — so the
invalidation sources are: transport failure, `FATAL`, unexpected kinds,
and `first > entries`. -/
theorem validateReplyStep_characterization (v0 rOk : Bool) (reply : VReply)
    (e : VElem) (fd0 : Bool) :
    ((validateReplyStep v0 rOk reply e fd0).valid = false ↔
      v0 = false ∨ rOk = false ∨ reply.kind = VMsgKind.Fatal ∨
      reply.kind = VMsgKind.Other ∨
      (reply.kind = VMsgKind.GetEntries ∧ 0 < reply.entries ∧
       e.entryListN = none ∧ reply.entries < e.first)) ∧
    ((validateReplyStep v0 rOk reply e fd0).elem = none ↔
      rOk = true ∧ reply.kind = VMsgKind.GetEntries ∧ reply.entries ≤ 0) ∧
    ((validateReplyStep v0 rOk reply e fd0).messageSent = true ↔
      rOk = true ∧ reply.kind = VMsgKind.GetEntries ∧ reply.entries ≤ 0) ∧
    ((validateReplyStep v0 rOk reply e fd0).fileDone = true ↔
      fd0 = true ∨
      (rOk = true ∧ reply.kind = VMsgKind.GetEntries ∧ 0 < reply.entries ∧
       e.entryListN = none ∧ reply.entries < e.first)) := by
  unfold validateReplyStep
  cases rOk <;> cases hk : reply.kind <;>
    simp_all <;> split_ifs <;> simp_all <;> try omega
  all_goals
    refine ⟨⟨fun himp => ?_, fun hv h2 => hv.resolve_right (by omega)⟩, or_comm⟩
    rcases le_or_lt e.first reply.entries with h2 | h2
    · exact Or.inl (himp h2)
    · exact Or.inr h2

/-! ## Claim C8 -/

theorem calc_size_eq_claim (st : PacketizerSt) (s : SlaveSt) :
    calculatePacketSize st s =
      if chosenRate s ≠ 0 then claimRateSize st s else claimFirstSize st s := by
  simp only [calculatePacketSize, claimRateSize, claimFirstSize, claimTau,
    claimAvgRate, chosenRate, if_lt_eq_max]
  split_ifs <;> rfl

/-- Claim C8: `CalculatePacketSize` always returns at least 1; with a
positive current-or-cumulative rate `r` it returns `⌊r · τ⌋` (minimum 1)
for `τ = max(2, ((T − P) / avgRate) / 4)` and
`avgRate = P / (C / S)`; with rate 0 (first packet) it returns
`((T − P) / (8 · 4 · S)) · (perfIdx / maxPerfIdx)` (minimum 1), the inner
division being the source's C integer division. -/
theorem calculatePacketSize_formulas (st : PacketizerSt) (s : SlaveSt) :
    1 ≤ calculatePacketSize st s ∧
    (0 < chosenRate s → calculatePacketSize st s = claimRateSize st s) ∧
    (chosenRate s = 0 → calculatePacketSize st s = claimFirstSize st s) := by
  have he := calc_size_eq_claim st s
  refine ⟨?_, ?_, ?_⟩
  · rw [he]
    split_ifs
    · simp only [claimRateSize]
      exact le_max_left 1 _
    · simp only [claimFirstSize]
      exact le_max_left 1 _
  · intro h
    rw [he, if_pos (ne_of_gt h)]
  · intro h
    rw [he, if_neg (not_not_intro h)]

/-! ## State-preservation lemmas for the GetNextPacket phases -/

theorem sumProcessed_set_delta (l : List SlaveSt) (i : Nat) (x : SlaveSt)
    (h : i < l.length) :
    ((l.set i x).map SlaveSt.processed).sum =
      (l.map SlaveSt.processed).sum - (l.getD i dfltSlave).processed + x.processed := by
  induction l generalizing i with
  | nil => simp at h
  | cons a as ih =>
    cases i with
    | zero =>
      show x.processed + (List.map SlaveSt.processed as).sum = _
      simp [List.getD_cons_zero]
      omega
    | succ n =>
      have hn : n < as.length := by simpa using h
      have h2 := ih n hn
      show SlaveSt.processed a + (List.map SlaveSt.processed (as.set n x)).sum = _
      rw [h2]
      simp [List.getD_cons_succ]
      omega

theorem sumSlaveProcessed_setSlaveAt (st : PacketizerSt) (si : Nat) (sl : SlaveSt)
    (h : sl.processed = (slaveAt st si).processed) :
    sumSlaveProcessed (setSlaveAt st si sl) = sumSlaveProcessed st :=
  sumProcessed_set st.slaves si sl h

theorem nextNode_snd (st : PacketizerSt) :
    (nextNode st).2 =
      { st with unAllocated := sortByCompare (nodeCmp st) st.unAllocated } := by
  simp only [nextNode]
  split <;> (try split_ifs) <;> rfl

theorem nextNode_pres (st : PacketizerSt) :
    (nextNode st).2.processed = st.processed ∧ (nextNode st).2.slaves = st.slaves ∧
    (nextNode st).2.totalEntries = st.totalEntries := by
  rw [nextNode_snd]
  exact ⟨rfl, rfl, rfl⟩

theorem getNextUnAllocLoop_pres (fuel : Nat) : ∀ st : PacketizerSt,
    (getNextUnAllocLoop fuel st).2.processed = st.processed ∧
    (getNextUnAllocLoop fuel st).2.slaves = st.slaves ∧
    (getNextUnAllocLoop fuel st).2.totalEntries = st.totalEntries := by
  induction fuel with
  | zero => intro st; exact ⟨rfl, rfl, rfl⟩
  | succ fuel ih =>
    intro st
    rw [getNextUnAllocLoop]
    obtain ⟨hp, hs, ht⟩ := nextNode_pres st
    split
    · exact ⟨hp, hs, ht⟩
    · split
      · exact ⟨hp, hs, ht⟩
      · obtain ⟨hp2, hs2, ht2⟩ := ih (removeUnAllocNode (nextNode st).2 _)
        exact ⟨hp2.trans hp, hs2.trans hs, ht2.trans ht⟩

theorem getNextUnAllocP_pres (st : PacketizerSt) :
    (getNextUnAllocP st).2.processed = st.processed ∧
    (getNextUnAllocP st).2.slaves = st.slaves ∧
    (getNextUnAllocP st).2.totalEntries = st.totalEntries := by
  unfold getNextUnAllocP
  obtain ⟨hp, hs, ht⟩ := getNextUnAllocLoop_pres (st.unAllocated.length + 1) st
  split
  · exact ⟨hp, hs, ht⟩
  · unfold addActiveIfAbsent
    split_ifs <;> exact ⟨hp, hs, ht⟩

theorem nextActiveNode_snd (st : PacketizerSt) :
    (nextActiveNode st).2 =
      { st with active := sortByCompare (nodeCmp st) st.active } := by
  simp only [nextActiveNode]
  split <;> (try split_ifs) <;> rfl

theorem nextActiveNode_pres (st : PacketizerSt) :
    (nextActiveNode st).2.processed = st.processed ∧
    (nextActiveNode st).2.slaves = st.slaves ∧
    (nextActiveNode st).2.totalEntries = st.totalEntries := by
  rw [nextActiveNode_snd]
  exact ⟨rfl, rfl, rfl⟩

theorem getNextActiveLoop_pres (fuel : Nat) : ∀ st : PacketizerSt,
    (getNextActiveLoop fuel st).2.processed = st.processed ∧
    (getNextActiveLoop fuel st).2.slaves = st.slaves ∧
    (getNextActiveLoop fuel st).2.totalEntries = st.totalEntries := by
  induction fuel with
  | zero => intro st; exact ⟨rfl, rfl, rfl⟩
  | succ fuel ih =>
    intro st
    rw [getNextActiveLoop]
    obtain ⟨hp, hs, ht⟩ := nextActiveNode_pres st
    split
    · exact ⟨hp, hs, ht⟩
    · split
      · exact ⟨hp, hs, ht⟩
      · obtain ⟨hp2, hs2, ht2⟩ := ih (removeActiveNode (nextActiveNode st).2 _)
        exact ⟨hp2.trans hp, hs2.trans hs, ht2.trans ht⟩

theorem getNextActiveP_pres (st : PacketizerSt) :
    (getNextActiveP st).2.processed = st.processed ∧
    (getNextActiveP st).2.slaves = st.slaves ∧
    (getNextActiveP st).2.totalEntries = st.totalEntries :=
  getNextActiveLoop_pres (st.active.length + 1) st

theorem removeActiveP_pres (st : PacketizerSt) (ni fi : Nat) :
    (removeActiveP st ni fi).processed = st.processed ∧
    (removeActiveP st ni fi).slaves = st.slaves ∧
    (removeActiveP st ni fi).totalEntries = st.totalEntries := by
  simp only [removeActiveP]
  split_ifs <;> exact ⟨rfl, rfl, rfl⟩

theorem localTake_pres (st : PacketizerSt) (si lni : Nat) :
    (localTake st si lni).2.processed = st.processed ∧
    sumSlaveProcessed (localTake st si lni).2 = sumSlaveProcessed st ∧
    (localTake st si lni).2.totalEntries = st.totalEntries := by
  unfold localTake
  split
  · exact ⟨rfl, rfl, rfl⟩
  · split
    · exact ⟨rfl, rfl, rfl⟩
    · exact ⟨rfl, sumSlaveProcessed_setSlaveAt _ _ _ rfl, rfl⟩

theorem localAttempt_pres (st : PacketizerSt) (si : Nat) :
    (localAttempt st si).2.processed = st.processed ∧
    sumSlaveProcessed (localAttempt st si).2 = sumSlaveProcessed st ∧
    (localAttempt st si).2.totalEntries = st.totalEntries := by
  simp only [localAttempt]
  split
  · exact ⟨rfl, rfl, rfl⟩
  · split_ifs
    · exact localTake_pres _ _ _
    · exact ⟨rfl, rfl, rfl⟩

theorem finishAcquire_pres (p : Option (Nat × Nat) × PacketizerSt) (si : Nat) :
    (finishAcquire p si).2.processed = p.2.processed ∧
    sumSlaveProcessed (finishAcquire p si).2 = sumSlaveProcessed p.2 ∧
    (finishAcquire p si).2.totalEntries = p.2.totalEntries := by
  simp only [finishAcquire]
  split
  · exact ⟨rfl, rfl, rfl⟩
  · split_ifs <;> exact ⟨rfl, sumSlaveProcessed_setSlaveAt _ _ _ rfl, rfl⟩

theorem remoteFallback_pres (p : Option (Nat × Nat) × PacketizerSt) :
    (remoteFallback p).2.processed = p.2.processed ∧
    sumSlaveProcessed (remoteFallback p).2 = sumSlaveProcessed p.2 ∧
    (remoteFallback p).2.totalEntries = p.2.totalEntries := by
  simp only [remoteFallback]
  obtain ⟨hp1, hs1, ht1⟩ := getNextUnAllocP_pres p.2
  obtain ⟨hp2, hs2, ht2⟩ := getNextActiveP_pres (getNextUnAllocP p.2).2
  have hsum : ∀ a b : PacketizerSt, a.slaves = b.slaves →
      sumSlaveProcessed a = sumSlaveProcessed b := by
    intro a b h
    unfold sumSlaveProcessed
    rw [h]
  split_ifs with h1 h2
  · exact ⟨hp2.trans hp1, hsum _ _ (hs2.trans hs1), ht2.trans ht1⟩
  · exact ⟨hp1, hsum _ _ hs1, ht1⟩
  · exact ⟨rfl, rfl, rfl⟩

theorem acquireFile_pres (st : PacketizerSt) (si : Nat) :
    (acquireFile st si).2.processed = st.processed ∧
    sumSlaveProcessed (acquireFile st si).2 = sumSlaveProcessed st ∧
    (acquireFile st si).2.totalEntries = st.totalEntries := by
  unfold acquireFile
  obtain ⟨ha1, ha2, ha3⟩ := localAttempt_pres st si
  obtain ⟨hb1, hb2, hb3⟩ := remoteFallback_pres (localAttempt st si)
  obtain ⟨hc1, hc2, hc3⟩ := finishAcquire_pres (remoteFallback (localAttempt st si)) si
  exact ⟨(hc1.trans hb1).trans ha1, (hc2.trans hb2).trans ha2, (hc3.trans hb3).trans ha3⟩

theorem carvePhase_pres (st : PacketizerSt) (si : Nat) (nf : Nat × Nat) :
    (carvePhase st si nf).2.processed = st.processed ∧
    sumSlaveProcessed (carvePhase st si nf).2 = sumSlaveProcessed st ∧
    (carvePhase st si nf).2.totalEntries = st.totalEntries := by
  simp only [carvePhase]
  obtain ⟨h1, h2, h3⟩ := removeActiveP_pres (setFileAt st nf.1 nf.2
    (carvePacket (fileAt st nf.1 nf.2) (calculatePacketSize st (slaveAt st si))).2) nf.1 nf.2
  have hsum : ∀ a b : PacketizerSt, a.slaves = b.slaves →
      sumSlaveProcessed a = sumSlaveProcessed b := by
    intro a b h
    unfold sumSlaveProcessed
    rw [h]
  split_ifs with hc
  · refine ⟨h1, ?_, h3⟩
    refine (sumSlaveProcessed_setSlaveAt _ _ _ ?_).trans (hsum _ _ h2)
    rfl
  · refine ⟨rfl, ?_, rfl⟩
    refine (sumSlaveProcessed_setSlaveAt _ _ _ ?_)
    rfl


/-! ## UpdatePhase lemmas -/

theorem updateRates_pres (st : PacketizerSt) (si : Nat) (n : Int) (t : ℚ) :
    (updateRates st si n t).stop = st.stop ∧
    (updateRates st si n t).valid = st.valid ∧
    (updateRates st si n t).totalEntries = st.totalEntries ∧
    (updateRates st si n t).processed = st.processed := by
  unfold updateRates
  split
  · exact ⟨rfl, rfl, rfl, rfl⟩
  · exact ⟨rfl, rfl, rfl, rfl⟩

theorem updatePhase_pres (st : PacketizerSt) (si : Nat) (r : PacketReply) :
    (updatePhase st si r).stop = st.stop ∧
    (updatePhase st si r).valid = st.valid ∧
    (updatePhase st si r).totalEntries = st.totalEntries := by
  unfold updatePhase
  split
  · exact ⟨rfl, rfl, rfl⟩
  · refine ⟨?_, ?_, ?_⟩ <;>
      simp [setSlaveAt, (updateRates_pres _ _ _ _).1, (updateRates_pres _ _ _ _).2.1,
        (updateRates_pres _ _ _ _).2.2.1]

theorem updatePhase_processed (st : PacketizerSt) (si : Nat) (r : PacketReply) :
    (updatePhase st si r).processed =
      st.processed +
        (if computedIncrement st si r > 0 then computedIncrement st si r else 0) := by
  unfold updatePhase computedIncrement
  split
  · simp
  · simp [setSlaveAt, (updateRates_pres _ _ _ _).2.2.2]

theorem updatePhase_slave_processed (st : PacketizerSt) (si : Nat) (r : PacketReply)
    (hsi : si < st.slaves.length)
    (pkt : Packet) (hce : (slaveAt st si).curElem = some pkt)
    (nf : Nat × Nat) (hcf : (slaveAt st si).curFile = some nf) :
    (slaveAt (updatePhase st si r) si).processed =
      (slaveAt st si).processed + computedIncrement st si r := by
  unfold updatePhase computedIncrement
  simp only [slaveAt] at hce hcf
  simp only [slaveAt]
  rw [hce]
  simp only [updateRates, slaveAt, setSlaveAt, setNodeAt, nodeAt]
  rw [hcf]
  simp only [getD_set_self, List.length_set, hsi]
  split_ifs <;> rfl

theorem sum_double_set (l : List SlaveSt) (i : Nat) (x y : SlaveSt) (h : i < l.length)
    (hxy : y.processed = x.processed) :
    (((l.set i x).set i y).map SlaveSt.processed).sum =
      (l.map SlaveSt.processed).sum - (l.getD i dfltSlave).processed + x.processed := by
  have h3 : y.processed = ((l.set i x).getD i dfltSlave).processed := by
    rw [hxy, getD_set_self _ _ _ _ h]
  rw [sumProcessed_set _ _ _ h3, sumProcessed_set_delta _ _ _ h]

theorem updatePhase_sum (st : PacketizerSt) (si : Nat) (r : PacketReply)
    (hsi : si < st.slaves.length)
    (pkt : Packet) (hce : (slaveAt st si).curElem = some pkt)
    (nf : Nat × Nat) (hcf : (slaveAt st si).curFile = some nf) :
    sumSlaveProcessed (updatePhase st si r) =
      sumSlaveProcessed st + computedIncrement st si r := by
  unfold updatePhase computedIncrement
  simp only [slaveAt] at hce hcf
  simp only [slaveAt]
  rw [hce]
  simp only [updateRates, slaveAt, setSlaveAt, setNodeAt, nodeAt]
  rw [hcf]
  simp only [getD_set_self, List.length_set, hsi]
  unfold sumSlaveProcessed
  refine Eq.trans (sum_double_set _ _ _ _ (by simpa using hsi) rfl) ?_
  split_ifs <;> (try simp) <;> (try omega)

theorem updatePhase_node_processed (st : PacketizerSt) (si : Nat) (r : PacketReply)
    (hsi : si < st.slaves.length)
    (pkt : Packet) (hce : (slaveAt st si).curElem = some pkt)
    (nf : Nat × Nat) (hcf : (slaveAt st si).curFile = some nf)
    (hni : nf.1 < st.nodes.length) :
    (nodeAt (updatePhase st si r) nf.1).processed =
      (nodeAt st nf.1).processed + computedIncrement st si r := by
  unfold updatePhase computedIncrement
  simp only [slaveAt] at hce hcf
  simp only [slaveAt]
  rw [hce]
  simp only [updateRates, slaveAt, setSlaveAt, setNodeAt, nodeAt]
  rw [hcf]
  simp only [getD_set_self, List.length_set, hsi, hni]

theorem clearDoneFile_pres (st : PacketizerSt) (si : Nat) :
    (clearDoneFile st si).2.processed = st.processed ∧
    (clearDoneFile st si).2.slaves = st.slaves ∧
    (clearDoneFile st si).2.totalEntries = st.totalEntries ∧
    (clearDoneFile st si).2.stop = st.stop ∧
    (clearDoneFile st si).2.valid = st.valid := by
  unfold clearDoneFile
  split
  · exact ⟨rfl, rfl, rfl, rfl, rfl⟩
  · split_ifs <;> exact ⟨rfl, rfl, rfl, rfl, rfl⟩

theorem gnpDispatch_pres (p : Option (Nat × Nat) × PacketizerSt) (si : Nat) :
    (gnpDispatch p si).2.processed = p.2.processed ∧
    sumSlaveProcessed (gnpDispatch p si).2 = sumSlaveProcessed p.2 := by
  unfold gnpDispatch
  split
  · exact ⟨rfl, rfl⟩
  · rename_i nf heq
    obtain ⟨h1, h2, _⟩ := carvePhase_pres p.2 si nf
    exact ⟨h1, h2⟩

theorem gnpAfterClear_pres (p : Option (Nat × Nat) × PacketizerSt) (si : Nat) :
    (gnpAfterClear p si).2.processed = p.2.processed ∧
    sumSlaveProcessed (gnpAfterClear p si).2 = sumSlaveProcessed p.2 := by
  unfold gnpAfterClear
  split_ifs with h h2
  · exact ⟨rfl, rfl⟩
  · obtain ⟨a1, a2, _⟩ := acquireFile_pres p.2 si
    obtain ⟨d1, d2⟩ := gnpDispatch_pres (acquireFile p.2 si) si
    exact ⟨d1.trans a1, d2.trans a2⟩
  · exact gnpDispatch_pres p si

theorem gnpAfterUpdate_pres (st : PacketizerSt) (si : Nat) :
    (gnpAfterUpdate st si).2.processed = st.processed ∧
    sumSlaveProcessed (gnpAfterUpdate st si).2 = sumSlaveProcessed st := by
  unfold gnpAfterUpdate
  split_ifs with h
  · exact ⟨rfl, rfl⟩
  · obtain ⟨c1, c2, c3, c4, c5⟩ := clearDoneFile_pres st si
    obtain ⟨g1, g2⟩ := gnpAfterClear_pres (clearDoneFile st si) si
    have hsum : sumSlaveProcessed (clearDoneFile st si).2 = sumSlaveProcessed st := by
      unfold sumSlaveProcessed
      rw [c2]
    exact ⟨g1.trans c1, g2.trans hsum⟩

/-! ## Claim C1 -/

/-- Claim C1, counterexample: a valid, un-stopped state with 0 of 10
entries processed in which `GetNextPacket` still returns "no more work",
because the only node holding files has reached the
external-workers-per-node cap, so `NextNode` and `NextActiveNode` both
refuse it (lines 692-697, 740-744) and no file can be assigned. -/
theorem getNextPacket_cap_starvation_cex :
    capSt.valid = true ∧ capSt.stop = false ∧
    capSt.processed ≠ capSt.totalEntries ∧
    (updatePhase capSt 0 trivialReply).processed ≠ capSt.totalEntries ∧
    (getNextPacket capSt 0 trivialReply).1 = none := by decide

/-- Claim C1 (amended): `GetNextPacket` returns "no more work" iff the
packetizer is invalid, the stop flag is set, the processed count (after
absorbing the reply's statistics) equals `totalEntries`, or the
file-choice phase can assign no file to the worker (for example because
every candidate node is at the external-workers-per-node cap); in every
other state it returns a packet. -/
theorem getNextPacket_none_characterization (st : PacketizerSt) (si : Nat) (r : PacketReply) :
    (getNextPacket st si r).1 = none ↔
      st.valid = false ∨ st.stop = true ∨
      (updatePhase st si r).processed = st.totalEntries ∨
      acquiredFileOpt st si r = none := by
  obtain ⟨hu1, hu2, hu3⟩ := updatePhase_pres st si r
  obtain ⟨hc1, hc2, hc3, hc4, hc5⟩ := clearDoneFile_pres (updatePhase st si r) si
  unfold getNextPacket gnpAfterUpdate gnpAfterClear gnpDispatch acquiredFileOpt
  by_cases hv : st.valid = false
  · simp [hv]
  · rw [if_neg hv]
    by_cases hstop : st.stop = true
    · rw [if_pos (hu1.trans hstop)]
      simp [hv, hstop]
    · rw [if_neg (fun hx => hstop (hu1.symm.trans hx))]
      by_cases htp : (updatePhase st si r).processed = st.totalEntries
      · rw [if_pos (by rw [hc3, hc1, hu3, htp])]
        simp [hv, hstop, htp]
      · rw [if_neg (fun hx => htp (by rw [← hc1, ← hx, hc3, hu3]))]
        simp only [hv, hstop, htp, false_or]
        cases hq : (if (clearDoneFile (updatePhase st si r) si).1 = none
            then acquireFile (clearDoneFile (updatePhase st si r) si).2 si
            else clearDoneFile (updatePhase st si r) si).1 with
        | none => simp [hq]
        | some nf => simp [hq]

/-! ## Claim C7 -/

/-- Claim C7, counterexample: a `GetNextPacket` call whose reply carries a
cumulative `eventsSeen` of 3 while the worker had 5 recorded: the global
counter keeps 5 (negative increments add 0) but the worker's counter drops
to 3, so after the call the global counter does not equal the sum over all
workers of the records they reported processed. -/
theorem processed_sum_mismatch_cex :
    (getNextPacket overSt 0 overReply).2.processed = 5 ∧
    sumSlaveProcessed (getNextPacket overSt 0 overReply).2 = 3 ∧
    (getNextPacket overSt 0 overReply).2.processed ≠
      sumSlaveProcessed (getNextPacket overSt 0 overReply).2 := by decide

/-- Claim C7 (amended): across any `GetNextPacket` call the difference
between the global processed counter and the per-worker sum never
decreases, and it is unchanged — so equality of the two, once true, is
preserved — whenever the computed event increment of the reply is
non-negative; a negative increment (cumulative `eventsSeen` below the
worker's recorded count) strictly increases the difference.  Moreover the
code does not bound the global counter by `totalEntries` when a worker
over-reports, exhibited concretely: the call on `overTotSt` (a 5-entry
query receiving a cumulative `eventsSeen` of 9) ends with the global
counter at 9 while `totalEntries` is 5. -/
theorem processed_drift_monotone (st : PacketizerSt) (si : Nat) (r : PacketReply)
    (hsi : si < st.slaves.length)
    (hwf : ∀ pkt, (slaveAt st si).curElem = some pkt → (slaveAt st si).curFile.isSome) :
    (procDrift st ≤ procDrift (getNextPacket st si r).2 ∧
     (0 ≤ computedIncrement st si r →
       procDrift (getNextPacket st si r).2 = procDrift st)) ∧
    ((getNextPacket overTotSt 0 overTotReply).2.totalEntries = 5 ∧
     (getNextPacket overTotSt 0 overTotReply).2.processed = 9 ∧
     (getNextPacket overTotSt 0 overTotReply).2.totalEntries <
       (getNextPacket overTotSt 0 overTotReply).2.processed) := by
  refine ⟨?_, by decide⟩
  unfold getNextPacket
  split_ifs with hv
  · exact ⟨le_refl _, fun _ => rfl⟩
  · obtain ⟨g1, g2⟩ := gnpAfterUpdate_pres (updatePhase st si r) si
    have hdrift : procDrift (gnpAfterUpdate (updatePhase st si r) si).2 =
        procDrift (updatePhase st si r) := by
      unfold procDrift
      rw [g1, g2]
    rw [hdrift]
    cases hce : (slaveAt st si).curElem with
    | none =>
      have hup : updatePhase st si r = st := by
        unfold updatePhase
        rw [hce]
      rw [hup]
      exact ⟨le_refl _, fun _ => rfl⟩
    | some pkt =>
      obtain ⟨nf, hcf⟩ : ∃ nf, (slaveAt st si).curFile = some nf := by
        have hs := hwf pkt hce
        cases hx : (slaveAt st si).curFile with
        | none => rw [hx] at hs; simp at hs
        | some nf => exact ⟨nf, rfl⟩
      have hp := updatePhase_processed st si r
      have hs := updatePhase_sum st si r hsi pkt hce nf hcf
      unfold procDrift
      rw [hp, hs]
      refine ⟨?_, fun h => ?_⟩ <;> split_ifs <;> omega

/-- Claim C7, witness: the drift relation at a call with a positive
recomputed increment, together with the over-report overshoot instance. -/
theorem processed_drift_monotone_witness :
    (procDrift incSt ≤ procDrift (getNextPacket incSt 0 incReply).2 ∧
     (0 ≤ computedIncrement incSt 0 incReply →
       procDrift (getNextPacket incSt 0 incReply).2 = procDrift incSt)) ∧
    ((getNextPacket overTotSt 0 overTotReply).2.totalEntries = 5 ∧
     (getNextPacket overTotSt 0 overTotReply).2.processed = 9 ∧
     (getNextPacket overTotSt 0 overTotReply).2.totalEntries <
       (getNextPacket overTotSt 0 overTotReply).2.processed) :=
  processed_drift_monotone incSt 0 incReply (by decide) (fun _ _ => by decide)

/-! ## Claim C10 -/

/-- Claim C10: when a worker's reply carries a positive cumulative
`eventsSeen`, the packet's event count is recomputed as `eventsSeen` minus
the worker's previously recorded processed count; only a positive
increment is added to the global counter (a negative one adds 0), so the
global counter is monotonically non-decreasing across `GetNextPacket`
calls, while the per-worker and per-node counters absorb the raw, possibly
negative, value. -/
theorem processed_monotone_and_increment (st : PacketizerSt) (si : Nat) (r : PacketReply)
    (hsi : si < st.slaves.length)
    (pkt : Packet) (hce : (slaveAt st si).curElem = some pkt)
    (nf : Nat × Nat) (hcf : (slaveAt st si).curFile = some nf)
    (hni : nf.1 < st.nodes.length)
    (htot : 0 < r.eventsSeen.getD 0) :
    computedIncrement st si r = r.eventsSeen.getD 0 - (slaveAt st si).processed ∧
    (updatePhase st si r).processed = st.processed +
      (if computedIncrement st si r > 0 then computedIncrement st si r else 0) ∧
    (slaveAt (updatePhase st si r) si).processed =
      (slaveAt st si).processed + computedIncrement st si r ∧
    (nodeAt (updatePhase st si r) nf.1).processed =
      (nodeAt st nf.1).processed + computedIncrement st si r ∧
    st.processed ≤ (getNextPacket st si r).2.processed := by
  refine ⟨?_, updatePhase_processed st si r,
    updatePhase_slave_processed st si r hsi pkt hce nf hcf,
    updatePhase_node_processed st si r hsi pkt hce nf hcf hni, ?_⟩
  · simp [computedIncrement, hce, htot]
  · unfold getNextPacket
    split_ifs with hv
    · exact le_refl _
    · obtain ⟨g1, g2⟩ := gnpAfterUpdate_pres (updatePhase st si r) si
      rw [g1, updatePhase_processed st si r]
      split_ifs <;> omega

/-- Claim C10, witness: the increment bookkeeping at a call whose reply
carries `eventsSeen = 6` against 2 recorded processed entries. -/
theorem processed_monotone_and_increment_witness :
    computedIncrement incSt 0 incReply =
      incReply.eventsSeen.getD 0 - (slaveAt incSt 0).processed ∧
    (updatePhase incSt 0 incReply).processed = incSt.processed +
      (if computedIncrement incSt 0 incReply > 0 then computedIncrement incSt 0 incReply else 0) ∧
    (slaveAt (updatePhase incSt 0 incReply) 0).processed =
      (slaveAt incSt 0).processed + computedIncrement incSt 0 incReply ∧
    (nodeAt (updatePhase incSt 0 incReply) ((0, 0) : Nat × Nat).1).processed =
      (nodeAt incSt ((0, 0) : Nat × Nat).1).processed + computedIncrement incSt 0 incReply ∧
    incSt.processed ≤ (getNextPacket incSt 0 incReply).2.processed :=
  processed_monotone_and_increment incSt 0 incReply (by decide)
    { first := 0, num := 2 } (by decide) (0, 0) (by decide) (by decide) (by decide)

end AdaptivePacketizer
